import Mathlib

/-!
Verification of the request-dispatch layer of `www/webframe.py`
(parameter classification, parameter binding, dispatch, route registration).

The Python code is shallowly embedded: each Python function becomes a Lean
definition with the same name where possible, over explicit models of the
Python values involved (inspect parameters, aiohttp request objects,
insertion-ordered dicts).
-/

set_option autoImplicit false

namespace Webframe

/-! ## Model of `inspect.Parameter` -/

/-- The five parameter kinds of `inspect.Parameter.kind`. -/
inductive ParamKind where
  | positionalOnly
  | positionalOrKeyword
  | varPositional
  | keywordOnly
  | varKeyword
  deriving DecidableEq, Repr

/-- One entry of `inspect.signature(fn).parameters`: a name, a kind, and
whether a default value is present (`param.default != Parameter.empty`). -/
structure Param where
  name : String
  kind : ParamKind
  hasDefault : Bool
  deriving DecidableEq, Repr

/-! ## Model of Python dicts (insertion-ordered, unique keys) -/

/-- A Python dict as an insertion-ordered association list with unique keys
maintained by `dictInsert`. -/
abbrev PyDict (α : Type) := List (String × α)

/-- `d[k]` lookup: first entry whose key equals `k`. -/
def dictLookup {α : Type} (m : PyDict α) (k : String) : Option α :=
  (m.find? (fun p => p.1 = k)).map (fun p => p.2)

/-- `d[k] = v`: replace the value in place if the key is present, otherwise
append the new entry (CPython dicts keep insertion order on update). -/
def dictInsert {α : Type} (m : PyDict α) (k : String) (v : α) : PyDict α :=
  if m.any (fun p => p.1 = k) then
    m.map (fun p => if p.1 = k then (k, v) else p)
  else
    m ++ [(k, v)]

/-- `k in d` membership test. -/
def dictContains {α : Type} (m : PyDict α) (k : String) : Bool :=
  m.any (fun p => p.1 = k)

/-- Build a dict from a list of pairs, inserting left to right
(`dict(pairs)`: a later pair with the same key overwrites an earlier one). -/
def dictOf {α : Type} (l : List (String × α)) : PyDict α :=
  l.foldl (fun m p => dictInsert m p.1 p.2) []

/-! ## `webframe.py` signature analysis -/

/-- Loop body of `has_request_arg`: `found` is the flag carried across
iterations.  A parameter named `request` sets the flag and is skipped
(`continue`); after the flag is set, any parameter whose kind is not
`VAR_POSITIONAL`, `KEYWORD_ONLY` or `VAR_KEYWORD` raises `ValueError`. -/
def has_request_arg_loop : Bool → List Param → Except String Bool
  | found, [] => Except.ok found
  | found, p :: rest =>
    if p.name = "request" then
      has_request_arg_loop true rest
    else if found ∧ p.kind ≠ ParamKind.varPositional
              ∧ p.kind ≠ ParamKind.keywordOnly
              ∧ p.kind ≠ ParamKind.varKeyword then
      Except.error "request parameter must be the last named parameter in function"
    else
      has_request_arg_loop found rest

/-- `has_request_arg(fn)` (webframe.py lines 38-53): scans the signature for a
parameter named `request`; raises `ValueError` if an ordinary positional
parameter occurs after it.  The Python error message also interpolates the
function name and signature; the model keeps the fixed text. -/
def has_request_arg (params : List Param) : Except String Bool :=
  has_request_arg_loop false params

/-- `has_var_kw_arg(fn)` (lines 56-61): true iff some parameter has kind
`VAR_KEYWORD` (the Python function returns `None`, which is falsy, when
no such parameter exists). -/
def has_var_kw_arg (params : List Param) : Bool :=
  params.any (fun p => p.kind = ParamKind.varKeyword)

/-- `has_named_kw_args(fn)` (lines 64-69): true iff some parameter has kind
`KEYWORD_ONLY`. -/
def has_named_kw_args (params : List Param) : Bool :=
  params.any (fun p => p.kind = ParamKind.keywordOnly)

/-- `get_named_kw_args(fn)` (lines 72-79): names of all `KEYWORD_ONLY`
parameters, in declaration order. -/
def get_named_kw_args (params : List Param) : List String :=
  (params.filter (fun p => p.kind = ParamKind.keywordOnly)).map (fun p => p.name)

/-- `get_required_kw_args(fn)` (lines 82-94): names of the `KEYWORD_ONLY`
parameters without a default value, in declaration order. -/
def get_required_kw_args (params : List Param) : List String :=
  (params.filter (fun p =>
    p.kind = ParamKind.keywordOnly ∧ p.hasDefault = false)).map (fun p => p.name)

/-! ## Model of JSON values and request argument values -/

/-- A parsed JSON value, as produced by `request.json()`. -/
inductive JsonVal where
  | null
  | bool (b : Bool)
  | num (n : Int)
  | str (s : String)
  | arr (l : List JsonVal)
  | obj (fields : List (String × JsonVal))

/-- A value stored in the argument mapping `kw`: a string (query string, form
field or path segment), a JSON value (from a JSON body), or the raw request
object injected under the key `request`. -/
inductive Val where
  | str (s : String)
  | json (j : JsonVal)
  | request

/-! ## Model of the aiohttp request object -/

/-- The slice of the aiohttp request object that `RequestHandler.__call__`
consumes: method, content type header, the results of `request.json()` and
`request.post()`, the raw query string, and the path-matched segments
(`request.match_info`). -/
structure Request where
  method : String
  contentType : Option String
  jsonBody : JsonVal
  postForm : List (String × String)
  queryString : String
  matchInfo : List (String × String)

/-! ## `RequestHandler` classification state -/

/-- The fields `RequestHandler.__init__` precomputes from the handler
function (lines 99-108). -/
structure HandlerInfo where
  hasRequestArg : Bool
  hasVarKwArg : Bool
  hasNamedKwArgs : Bool
  namedKwArgs : List String
  requiredKwArgs : List String
  deriving DecidableEq, Repr

/-- `RequestHandler.__init__(app, fn)`: runs the signature analysis; the
`has_request_arg` check can raise `ValueError`. -/
def mkHandlerInfo (params : List Param) : Except String HandlerInfo := do
  let hra ← has_request_arg params
  Except.ok {
    hasRequestArg := hra
    hasVarKwArg := has_var_kw_arg params
    hasNamedKwArgs := has_named_kw_args params
    namedKwArgs := get_named_kw_args params
    requiredKwArgs := get_required_kw_args params
  }

/-! ## Structural models of the Python string collaborators

The binder relies on three Python string-library collaborators:
`str.lower()`, `str.startswith()` and the splitting done inside
`urllib.parse.parse_qs`.  They are modelled structurally over the string's
character list so that concrete instances evaluate. -/

/-- `pre` is an initial segment of the second list. -/
def isHeadOf : List Char → List Char → Bool
  | [], _ => true
  | _ :: _, [] => false
  | a :: as, b :: bs => a = b && isHeadOf as bs

/-- `s.startswith(pre)`. -/
def pyStartsWith (s pre : String) : Bool := isHeadOf pre.data s.data

/-- `s.lower()` (the content types involved are ASCII). -/
def pyLower (s : String) : String := String.mk (s.data.map Char.toLower)

/-- Split a character list at every occurrence of `c` (Python `s.split(c)`:
adjacent separators yield empty chunks). -/
def splitOnChar (c : Char) : List Char → List (List Char)
  | [] => [[]]
  | a :: rest =>
    let r := splitOnChar c rest
    if a = c then [] :: r
    else
      match r with
      | [] => [[a]]
      | g :: gs => (a :: g) :: gs

/-- Split a character list at the first `=`: the key, and the value when a
`=` is present. -/
def splitFirstEq : List Char → List Char × Option (List Char)
  | [] => ([], none)
  | a :: rest =>
    if a = '=' then ([], some rest)
    else
      let kv := splitFirstEq rest
      (a :: kv.1, kv.2)

/-! ## Query-string parsing (`urllib.parse.parse_qs(qs, True)`)

`parse_qs` is an external library collaborator.  It is modelled at the level
the code relies on: pairs are separated by `&`, each pair splits at the first
`=`, and with `keep_blank_values=True` a pair with an empty (or absent) value
is kept with the empty string.  `parse_qs` groups the values of each key in
occurrence order; `__call__` then keeps `v[0]`, the first occurrence. -/

/-- `urllib.parse.parse_qsl(qs, True)`: the ordered list of `(key, value)`
pairs of the query string, blank values preserved. -/
def parse_qsl (qs : String) : List (String × String) :=
  ((splitOnChar '&' qs.data).filter (fun chunk => chunk ≠ [])).map
    (fun pair =>
      let kv := splitFirstEq pair
      (String.mk kv.1,
        match kv.2 with
        | none => ""
        | some v => String.mk v))

/-- The loop of lines 141-145: `kw = dict()`, then for each key of
`parse_qs(qs, True)` store the first value `v[0]`.  Keys arrive in order of
first occurrence, and only the first value of a repeated key is kept. -/
def queryMapping (qs : String) : PyDict Val :=
  (parse_qsl qs).foldl
    (fun m p => if dictContains m p.1 then m else m ++ [(p.1, Val.str p.2)]) []

/-! ## The parameter binder (`RequestHandler.__call__`, lines 110-169)

The body is split into faithful pieces: `baseMapping` is the
body/query-string resolution (lines 113-145, producing `kw`, possibly still
`None`), `preBind` adds the filtering, path-segment merge and request
injection (lines 146-163), and `bind` adds the required-argument check
(lines 164-169).  `Except.error msg` models `return web.HTTPBadRequest(msg)`. -/

/-- Shorthand for the condition of line 114: the handler declares a
var-keyword bag, named keyword-only arguments, or required arguments. -/
def needsArgs (h : HandlerInfo) : Bool :=
  h.hasVarKwArg || h.hasNamedKwArgs || !h.requiredKwArgs.isEmpty

/-- Lines 113-145: resolve the base argument source.  `none` means the Python
variable `kw` is still `None` after this part. -/
def baseMapping (h : HandlerInfo) (req : Request) :
    Except String (Option (PyDict Val)) :=
  if h.hasVarKwArg || h.hasNamedKwArgs || !h.requiredKwArgs.isEmpty then
    if req.method = "POST" then
      match req.contentType with
      | none => Except.error "Missing Content-Type."
      | some ctRaw =>
        let ct := pyLower ctRaw
        if pyStartsWith ct "application/json" then
          match req.jsonBody with
          | JsonVal.obj fields =>
            Except.ok (some (dictOf (fields.map (fun p => (p.1, Val.json p.2)))))
          | _ => Except.error "JSON body must be object."
        else if pyStartsWith ct "application/x-www-form-urlencoded"
                || pyStartsWith ct "multipart/form-data" then
          Except.ok (some (dictOf (req.postForm.map (fun p => (p.1, Val.str p.2)))))
        else
          Except.error ("Unsupported Content-Type: " ++ ctRaw)
    else if req.method = "GET" then
      if req.queryString ≠ "" then
        Except.ok (some (queryMapping req.queryString))
      else
        Except.ok none
    else
      Except.ok none
  else
    Except.ok none

/-- Lines 150-157: when a base mapping exists and the handler has no
var-keyword bag but does have named keyword-only arguments, copy over only
the named keys that are present. -/
def filterNamed (h : HandlerInfo) (kw : PyDict Val) : PyDict Val :=
  if !h.hasVarKwArg && !h.namedKwArgs.isEmpty then
    h.namedKwArgs.foldl
      (fun copy name =>
        match dictLookup kw name with
        | some v => dictInsert copy name v
        | none => copy) []
  else
    kw

/-- Lines 158-161: merge `request.match_info` into `kw`; an existing key only
logs a warning, the path-segment value overwrites unconditionally. -/
def mergeMatchInfo (kw : PyDict Val) (matchInfo : List (String × String)) :
    PyDict Val :=
  matchInfo.foldl (fun m p => dictInsert m p.1 (Val.str p.2)) kw

/-- Lines 113-163: the full argument mapping before the required-argument
check: base source, filter, path-segment merge, request injection. -/
def preBind (h : HandlerInfo) (req : Request) : Except String (PyDict Val) := do
  let kw? ← baseMapping h req
  let kw :=
    match kw? with
    | none => dictOf (req.matchInfo.map (fun p => (p.1, Val.str p.2)))
    | some kw0 => mergeMatchInfo (filterNamed h kw0) req.matchInfo
  Except.ok (if h.hasRequestArg then dictInsert kw "request" Val.request else kw)

/-- Lines 164-169: the required-argument check over the finished mapping:
the first declared required name missing from `kw` produces
`HTTPBadRequest('Missing arguments: <name>')`. -/
def requiredCheck (h : HandlerInfo) (kw : PyDict Val) :
    Except String (PyDict Val) :=
  match h.requiredKwArgs.find? (fun name => !dictContains kw name) with
  | some name => Except.error ("Missing arguments: " ++ name)
  | none => Except.ok kw

/-- Lines 113-169 of `RequestHandler.__call__`: resolve the argument mapping
or fail with a `HTTPBadRequest` message. -/
def bind (h : HandlerInfo) (req : Request) : Except String (PyDict Val) := do
  let kw ← preBind h req
  requiredCheck h kw

/-! ## Dispatch (`RequestHandler.__call__`, lines 170-176) -/

/-- The behaviour of one invocation of the wrapped handler body
`await self._func(**kw)`: a normal return, an `APIError` (the typed business
error from the collaborator module `apis`, carrying `error`, `data` and
`message`), or any other exception. -/
inductive HandlerRun (ρ : Type) where
  | ret (r : ρ)
  | raiseAPIError (error : JsonVal) (data : JsonVal) (message : String)
  | raiseOther (e : String)

/-- The possible outcomes of `RequestHandler.__call__`. -/
inductive DispatchResult (ρ : Type) where
  | badRequest (msg : String)
  | response (r : ρ)
  | errorDict (error : JsonVal) (data : JsonVal) (message : String)
  | propagated (e : String)

/-- `RequestHandler.__call__(request)`: bind the arguments (any
`HTTPBadRequest` is returned directly), call the handler, and catch exactly
`APIError`, converting it to `dict(error=..., data=..., message=...)`; every
other exception propagates. -/
def dispatch {ρ : Type} (h : HandlerInfo) (func : PyDict Val → HandlerRun ρ)
    (req : Request) : DispatchResult ρ :=
  match bind h req with
  | Except.error msg => DispatchResult.badRequest msg
  | Except.ok kw =>
    match func kw with
    | HandlerRun.ret r => DispatchResult.response r
    | HandlerRun.raiseAPIError c d m => DispatchResult.errorDict c d m
    | HandlerRun.raiseOther e => DispatchResult.propagated e

/-! ## Route registration (`add_route`, `add_routes`, lines 187-228) -/

/-- A Python function value as registration sees it: the decorator-attached
tags `__method__` and `__route__` (absent attribute modelled as `none`,
`getattr(fn, ..., None)`) and its signature. -/
structure PyFn where
  methodTag : Option String
  routeTag : Option String
  params : List Param
  deriving DecidableEq, Repr

/-- Python truthiness of `getattr(fn, tag, None)`: `None` and the empty
string are falsy. -/
def truthyTag : Option String → Bool
  | none => false
  | some s => s ≠ ""

/-- `add_route(app, fn)` (lines 187-202): read both tags; if either is
`None`, raise `ValueError`; construct the `RequestHandler` (whose signature
analysis can itself raise) and register `(method, path)` in the route table. -/
def add_route (fn : PyFn) : Except String (String × String × HandlerInfo) :=
  match fn.methodTag, fn.routeTag with
  | some m, some p => do
    let h ← mkHandlerInfo fn.params
    Except.ok (m, p, h)
  | _, _ => Except.error "@get or @post not define"

/-- One attribute of the handler module as seen by `add_routes`: its name in
`dir(mod)`, whether it is callable, and (when callable) its tags and
signature. -/
structure ModAttr where
  name : String
  isCallable : Bool
  fn : PyFn
  deriving DecidableEq, Repr

/-- The filter of `add_routes` (lines 216-227): a public attribute that is
callable and whose `__method__` and `__route__` are both truthy. -/
def registrable (a : ModAttr) : Bool :=
  !pyStartsWith a.name "_" && a.isCallable
    && truthyTag a.fn.methodTag && truthyTag a.fn.routeTag

/-- `add_routes(app, module_name)` (lines 205-228): scan the module's
attributes, skip names starting with `_`, and call `add_route` on every
callable carrying truthy method and route tags.  Returns the list of route
entries registered. -/
def add_routes (mod : List ModAttr) :
    Except String (List (String × String × HandlerInfo)) :=
  mod.foldlM
    (fun acc a =>
      if registrable a then
        match add_route a.fn with
        | Except.ok e => Except.ok (acc ++ [e])
        | Except.error msg => Except.error msg
      else
        Except.ok acc) []

/-! ## Vocabulary for the signature-order property (claim C4) -/

/-- The parameter kinds that `has_request_arg` rejects after `request`:
everything except `VAR_POSITIONAL`, `KEYWORD_ONLY` and `VAR_KEYWORD`, i.e.
ordinary positional parameters. -/
def ordinaryPositional (k : ParamKind) : Bool :=
  k = ParamKind.positionalOnly || k = ParamKind.positionalOrKeyword

/-- Some ordinary positional parameter (not itself named `request`) occurs
after a parameter named `request` in the list. -/
def requestBeforeOrdinary (params : List Param) : Prop :=
  ∃ l₁ p l₂ q l₃, params = l₁ ++ p :: l₂ ++ q :: l₃
    ∧ p.name = "request" ∧ q.name ≠ "request"
    ∧ ordinaryPositional q.kind = true

/-! ## Lemmas about the dict model -/

theorem dictLookup_cons {α : Type} (p : String × α) (m : PyDict α) (k : String) :
    dictLookup (p :: m) k = if p.1 = k then some p.2 else dictLookup m k := by
  by_cases h : p.1 = k <;> simp [dictLookup, List.find?, h]

theorem dictContains_eq_isSome {α : Type} (m : PyDict α) (k : String) :
    dictContains m k = (dictLookup m k).isSome := by
  induction m with
  | nil => rfl
  | cons p rest ih =>
    by_cases h : p.1 = k <;>
      simp [dictContains, dictLookup_cons, h, List.any_cons, ← ih, dictContains]

theorem dictLookup_append_of_some {α : Type} {m₁ : PyDict α} (m₂ : PyDict α)
    {k : String} {v : α} (h : dictLookup m₁ k = some v) :
    dictLookup (m₁ ++ m₂) k = some v := by
  induction m₁ with
  | nil => simp [dictLookup] at h
  | cons p rest ih =>
    rw [dictLookup_cons] at h
    by_cases hp : p.1 = k
    · simp [hp] at h
      simp [List.cons_append, dictLookup_cons, hp, h]
    · simp [hp] at h
      simp [List.cons_append, dictLookup_cons, hp, ih h]

theorem dictLookup_append_of_none {α : Type} {m₁ : PyDict α} (m₂ : PyDict α)
    {k : String} (h : dictLookup m₁ k = none) :
    dictLookup (m₁ ++ m₂) k = dictLookup m₂ k := by
  induction m₁ with
  | nil => simp
  | cons p rest ih =>
    rw [dictLookup_cons] at h
    by_cases hp : p.1 = k
    · simp [hp] at h
    · simp [hp] at h
      simp [List.cons_append, dictLookup_cons, hp, ih h]

theorem dictLookup_replace_self {α : Type} (m : PyDict α) (k : String) (v : α) :
    dictLookup (m.map (fun p => if p.1 = k then (k, v) else p)) k
      = if dictContains m k then some v else none := by
  induction m with
  | nil => simp [dictLookup, dictContains]
  | cons p rest ih =>
    by_cases hp : p.1 = k
    · simp [hp, dictLookup_cons, dictContains, List.any_cons]
    · simp [List.map_cons, if_neg hp, dictLookup_cons, ih,
        dictContains, List.any_cons]
      rw [decide_eq_false hp, Bool.false_or]

theorem dictLookup_replace_ne {α : Type} (m : PyDict α) (k : String) (v : α)
    {j : String} (hj : j ≠ k) :
    dictLookup (m.map (fun p => if p.1 = k then (k, v) else p)) j
      = dictLookup m j := by
  have hkj : ¬k = j := fun h => hj h.symm
  induction m with
  | nil => simp
  | cons p rest ih =>
    by_cases hp : p.1 = k
    · have hpj : ¬p.1 = j := by rw [hp]; exact hkj
      simp [List.map_cons, if_pos hp, dictLookup_cons, hkj, hpj, ih]
    · simp only [List.map_cons, if_neg hp, dictLookup_cons, ih]

theorem dictLookup_insert_self {α : Type} (m : PyDict α) (k : String) (v : α) :
    dictLookup (dictInsert m k v) k = some v := by
  unfold dictInsert
  by_cases hc : m.any (fun p => p.1 = k)
  · rw [if_pos hc, dictLookup_replace_self]
    simp [dictContains, hc]
  · rw [if_neg hc]
    have hnone : dictLookup m k = none := by
      have := dictContains_eq_isSome m k
      simp [dictContains, hc] at this
      exact Option.not_isSome_iff_eq_none.mp (by simp [← this])
    rw [dictLookup_append_of_none _ hnone]
    simp [dictLookup]

theorem dictLookup_insert_ne {α : Type} (m : PyDict α) (k : String) (v : α)
    {j : String} (hj : j ≠ k) :
    dictLookup (dictInsert m k v) j = dictLookup m j := by
  unfold dictInsert
  by_cases hc : m.any (fun p => p.1 = k)
  · rw [if_pos hc, dictLookup_replace_ne _ _ _ hj]
  · rw [if_neg hc]
    cases hl : dictLookup m j with
    | some w => rw [dictLookup_append_of_some _ hl]
    | none =>
      rw [dictLookup_append_of_none _ hl]
      have hkj : ¬k = j := fun h => hj h.symm
      simp [dictLookup, hkj, hl]

theorem dictContains_insert {α : Type} {m : PyDict α} {k : String} {v : α}
    {j : String} (h : dictContains (dictInsert m k v) j = true) :
    j = k ∨ dictContains m j = true := by
  by_cases hj : j = k
  · exact Or.inl hj
  · right
    rw [dictContains_eq_isSome] at h ⊢
    rwa [dictLookup_insert_ne _ _ _ hj] at h

/-! ## Lemmas about folded insertion (path-segment merge, `dictOf`) -/

section FoldInsert

variable {α β : Type} (f : α → β)

theorem foldl_insert_lookup_not_mem (l : List (String × α)) (m : PyDict β)
    (k : String) (hk : k ∉ l.map Prod.fst) :
    dictLookup (l.foldl (fun m p => dictInsert m p.1 (f p.2)) m) k
      = dictLookup m k := by
  induction l generalizing m with
  | nil => rfl
  | cons p rest ih =>
    simp only [List.map_cons, List.mem_cons] at hk
    push_neg at hk
    simp only [List.foldl_cons]
    rw [ih _ hk.2, dictLookup_insert_ne _ _ _ hk.1]

theorem foldl_insert_lookup_mem (l : List (String × α)) (m : PyDict β)
    (k : String) (v : α) (hnd : (l.map Prod.fst).Nodup) (hmem : (k, v) ∈ l) :
    dictLookup (l.foldl (fun m p => dictInsert m p.1 (f p.2)) m) k
      = some (f v) := by
  induction l generalizing m with
  | nil => cases hmem
  | cons p rest ih =>
    simp only [List.map_cons, List.nodup_cons] at hnd
    rcases List.mem_cons.mp hmem with heq | hmem'
    · simp only [List.foldl_cons]
      have hk : k ∉ rest.map Prod.fst := by
        have : p.1 = k := by rw [← heq]
        rw [← this]; exact hnd.1
      rw [foldl_insert_lookup_not_mem f rest _ k hk, ← heq]
      exact dictLookup_insert_self m k (f v)
    · simp only [List.foldl_cons]
      exact ih _ hnd.2 hmem'

theorem foldl_insert_contains (l : List (String × α)) (m : PyDict β)
    (k : String)
    (h : dictContains (l.foldl (fun m p => dictInsert m p.1 (f p.2)) m) k = true) :
    k ∈ l.map Prod.fst ∨ dictContains m k = true := by
  induction l generalizing m with
  | nil => exact Or.inr h
  | cons p rest ih =>
    simp only [List.foldl_cons] at h
    rcases ih _ h with hin | hc
    · exact Or.inl (by simp [hin])
    · rcases dictContains_insert hc with heq | hc'
      · exact Or.inl (by simp [heq])
      · exact Or.inr hc'

end FoldInsert

/-! ## Lemmas about the query-string mapping -/

theorem firstWins_aux (l : List (String × String)) (m : PyDict Val) (k : String) :
    dictLookup
      (l.foldl
        (fun m p => if dictContains m p.1 then m else m ++ [(p.1, Val.str p.2)]) m) k
      = match dictLookup m k with
        | some v => some v
        | none => (l.find? (fun p => p.1 = k)).map (fun p => Val.str p.2) := by
  induction l generalizing m with
  | nil => cases h : dictLookup m k <;> simp [h]
  | cons p rest ih =>
    simp only [List.foldl_cons]
    by_cases hc : dictContains m p.1 = true
    · rw [if_pos hc, ih]
      cases h : dictLookup m k with
      | some v => simp
      | none =>
        have hpk : ¬p.1 = k := by
          intro hpk
          rw [dictContains_eq_isSome, hpk, h] at hc
          simp at hc
        simp only [List.find?]
        rw [decide_eq_false hpk]
    · rw [if_neg hc, ih]
      have hmn : dictLookup m p.1 = none := by
        have := dictContains_eq_isSome m p.1
        rw [this] at hc
        exact Option.not_isSome_iff_eq_none.mp (by simpa using hc)
      by_cases hpk : p.1 = k
      · have hmk : dictLookup m k = none := hpk ▸ hmn
        have happ : dictLookup (m ++ [(p.1, Val.str p.2)]) k
            = some (Val.str p.2) := by
          rw [dictLookup_append_of_none _ hmk]
          simp [dictLookup, hpk]
        rw [happ, hmk]
        simp only [List.find?]
        rw [decide_eq_true hpk]
        simp
      · have happ : dictLookup (m ++ [(p.1, Val.str p.2)]) k = dictLookup m k := by
          cases h : dictLookup m k with
          | some v => rw [dictLookup_append_of_some _ h]
          | none =>
            rw [dictLookup_append_of_none _ h]
            simp [dictLookup, hpk]
        rw [happ]
        cases h : dictLookup m k with
        | some v => simp
        | none =>
          simp only [List.find?]
          rw [decide_eq_false hpk]

/-- The loop of lines 141-145 keeps, for every key, the value of the key's
first occurrence in the query string; a key is present iff it occurs. -/
theorem queryMapping_lookup (qs : String) (k : String) :
    dictLookup (queryMapping qs) k
      = ((parse_qsl qs).find? (fun p => p.1 = k)).map (fun p => Val.str p.2) := by
  unfold queryMapping
  rw [firstWins_aux]
  rfl

/-! ## Lemmas about the named-argument filter -/

theorem filterCopy_aux (kw : PyDict Val) (names : List String)
    (copy : PyDict Val) (k : String) :
    dictLookup
      (names.foldl
        (fun copy name =>
          match dictLookup kw name with
          | some v => dictInsert copy name v
          | none => copy) copy) k
      = if k ∈ names ∧ (dictLookup kw k).isSome then dictLookup kw k
        else dictLookup copy k := by
  induction names generalizing copy with
  | nil => simp
  | cons n rest ih =>
    simp only [List.foldl_cons]
    rw [ih]
    by_cases hmem : k ∈ rest ∧ (dictLookup kw k).isSome
    · rw [if_pos hmem, if_pos ⟨List.mem_cons_of_mem n hmem.1, hmem.2⟩]
    · rw [if_neg hmem]
      by_cases hkn : k = n
      · subst hkn
        cases hv : dictLookup kw k with
        | none => simp [hv]
        | some v =>
          simp only [hv]
          rw [dictLookup_insert_self, if_pos ⟨List.mem_cons_self k rest, by simp [hv]⟩]
      · have hcopy :
            dictLookup
              (match dictLookup kw n with
               | some v => dictInsert copy n v
               | none => copy) k = dictLookup copy k := by
          cases hv : dictLookup kw n with
          | none => rfl
          | some v => exact dictLookup_insert_ne copy n v hkn
        rw [hcopy, if_neg]
        intro hand
        exact hmem ⟨(List.mem_cons.mp hand.1).resolve_left hkn, hand.2⟩

/-- When the handler has no var-keyword bag but has named keyword-only
arguments, the filtered copy holds exactly the named keys that were in the
base mapping, with their base values. -/
theorem filterNamed_lookup (h : HandlerInfo) (kw : PyDict Val) (k : String)
    (hcond : (!h.hasVarKwArg && !h.namedKwArgs.isEmpty) = true) :
    dictLookup (filterNamed h kw) k
      = if k ∈ h.namedKwArgs then dictLookup kw k else none := by
  unfold filterNamed
  rw [if_pos hcond, filterCopy_aux]
  by_cases hmem : k ∈ h.namedKwArgs
  · cases hv : dictLookup kw k with
    | none => simp [hmem, hv, dictLookup]
    | some v => simp [hmem, hv]
  · simp [hmem, dictLookup]

theorem filterNamed_of_varKw (h : HandlerInfo) (kw : PyDict Val)
    (hcond : (!h.hasVarKwArg && !h.namedKwArgs.isEmpty) = false) :
    filterNamed h kw = kw := by
  unfold filterNamed
  rw [if_neg (by simp [hcond])]

/-! ## Lemmas about `mkHandlerInfo` -/

theorem mkHandlerInfo_ok_elim {params : List Param} {h : HandlerInfo}
    (hmk : mkHandlerInfo params = Except.ok h) :
    has_request_arg params = Except.ok h.hasRequestArg
      ∧ h.hasVarKwArg = has_var_kw_arg params
      ∧ h.hasNamedKwArgs = has_named_kw_args params
      ∧ h.namedKwArgs = get_named_kw_args params
      ∧ h.requiredKwArgs = get_required_kw_args params := by
  unfold mkHandlerInfo at hmk
  cases hra : has_request_arg params with
  | error e =>
    rw [hra] at hmk
    exact Except.noConfusion hmk
  | ok b =>
    rw [hra] at hmk
    have hmk' :
        (Except.ok
          { hasRequestArg := b
            hasVarKwArg := has_var_kw_arg params
            hasNamedKwArgs := has_named_kw_args params
            namedKwArgs := get_named_kw_args params
            requiredKwArgs := get_required_kw_args params } :
          Except String HandlerInfo) = Except.ok h := hmk
    cases hmk'
    exact ⟨rfl, rfl, rfl, rfl, rfl⟩

theorem named_ne_nil_of_required {params : List Param}
    (h : get_required_kw_args params ≠ []) : get_named_kw_args params ≠ [] := by
  unfold get_required_kw_args at h
  unfold get_named_kw_args
  intro hnil
  apply h
  rw [List.map_eq_nil_iff] at hnil ⊢
  rw [List.filter_eq_nil_iff] at hnil ⊢
  intro p hp hpred
  refine hnil p hp ?_
  have hkd := of_decide_eq_true hpred
  simp [hkd.1]

theorem has_named_of_ne_nil {params : List Param}
    (h : get_named_kw_args params ≠ []) : has_named_kw_args params = true := by
  unfold get_named_kw_args at h
  have hf : params.filter (fun p => p.kind = ParamKind.keywordOnly) ≠ [] := by
    intro hnil
    rw [hnil] at h
    exact h rfl
  rcases List.exists_mem_of_ne_nil _ hf with ⟨p, hp⟩
  rw [List.mem_filter] at hp
  unfold has_named_kw_args
  rw [List.any_eq_true]
  exact ⟨p, hp.1, hp.2⟩

theorem has_named_false_of_nil {params : List Param}
    (h : get_named_kw_args params = []) : has_named_kw_args params = false := by
  unfold get_named_kw_args at h
  rw [List.map_eq_nil_iff, List.filter_eq_nil_iff] at h
  unfold has_named_kw_args
  rw [List.any_eq_false]
  exact h

/-! ## Structural lemmas about the binder -/

theorem requiredCheck_ok_elim {h : HandlerInfo} {kw kw' : PyDict Val}
    (hc : requiredCheck h kw = Except.ok kw') : kw' = kw := by
  unfold requiredCheck at hc
  cases hf : h.requiredKwArgs.find? (fun name => !dictContains kw name) with
  | some n => rw [hf] at hc; cases hc
  | none => rw [hf] at hc; cases hc; rfl

theorem bind_eq_base_error {h : HandlerInfo} {req : Request} {e : String}
    (hb : baseMapping h req = Except.error e) :
    preBind h req = Except.error e ∧ bind h req = Except.error e := by
  have hpre : preBind h req = Except.error e := by
    unfold preBind
    rw [hb]
    rfl
  refine ⟨hpre, ?_⟩
  unfold bind
  rw [hpre]
  rfl

theorem preBind_base_some {h : HandlerInfo} {req : Request} {base : PyDict Val}
    (hb : baseMapping h req = Except.ok (some base)) :
    preBind h req = Except.ok
      (if h.hasRequestArg then
        dictInsert (mergeMatchInfo (filterNamed h base) req.matchInfo)
          "request" Val.request
      else mergeMatchInfo (filterNamed h base) req.matchInfo) := by
  unfold preBind
  rw [hb]
  rfl

theorem preBind_base_none {h : HandlerInfo} {req : Request}
    (hb : baseMapping h req = Except.ok none) :
    preBind h req = Except.ok
      (if h.hasRequestArg then
        dictInsert (dictOf (req.matchInfo.map (fun p => (p.1, Val.str p.2))))
          "request" Val.request
      else dictOf (req.matchInfo.map (fun p => (p.1, Val.str p.2)))) := by
  unfold preBind
  rw [hb]
  rfl

theorem bind_ok_elim {h : HandlerInfo} {req : Request} {kw : PyDict Val}
    (hb : bind h req = Except.ok kw) :
    preBind h req = Except.ok kw ∧ requiredCheck h kw = Except.ok kw := by
  unfold bind at hb
  cases hp : preBind h req with
  | error e => rw [hp] at hb; cases hb
  | ok kw' =>
    rw [hp] at hb
    have hb' : requiredCheck h kw' = Except.ok kw := hb
    have hkw : kw = kw' := requiredCheck_ok_elim hb'
    subst hkw
    exact ⟨rfl, hb'⟩

theorem bind_of_parts {h : HandlerInfo} {req : Request} {kw : PyDict Val}
    (hp : preBind h req = Except.ok kw) :
    bind h req = requiredCheck h kw := by
  unfold bind
  rw [hp]
  rfl

/-! ## Branch lemmas for `baseMapping` -/

theorem baseMapping_skip {h : HandlerInfo} {req : Request}
    (hc : needsArgs h = false) : baseMapping h req = Except.ok none := by
  unfold baseMapping
  rw [if_neg (by simp [needsArgs] at hc; simp [hc])]

theorem baseMapping_some_needsArgs {h : HandlerInfo} {req : Request}
    {base : PyDict Val} (hb : baseMapping h req = Except.ok (some base)) :
    needsArgs h = true := by
  by_cases hc : needsArgs h = true
  · exact hc
  · rw [baseMapping_skip (Bool.eq_false_iff.mpr hc)] at hb
    cases hb

theorem baseMapping_GET {h : HandlerInfo} {req : Request}
    (hc : needsArgs h = true) (hm : req.method = "GET")
    (hq : req.queryString ≠ "") :
    baseMapping h req = Except.ok (some (queryMapping req.queryString)) := by
  unfold baseMapping
  rw [if_pos (by simpa [needsArgs] using hc), hm]
  simp [hq]

theorem baseMapping_GET_empty {h : HandlerInfo} {req : Request}
    (hm : req.method = "GET") (hq : req.queryString = "") :
    baseMapping h req = Except.ok none := by
  unfold baseMapping
  by_cases hc : h.hasVarKwArg = true ∨ h.hasNamedKwArgs = true
      ∨ (!h.requiredKwArgs.isEmpty) = true
  · rw [if_pos (by simpa [or_assoc, and_assoc] using hc), hm]
    simp [hq]
  · rw [if_neg (by simpa [or_assoc, and_assoc] using hc)]

theorem baseMapping_other_method {h : HandlerInfo} {req : Request}
    (hm1 : req.method ≠ "POST") (hm2 : req.method ≠ "GET") :
    baseMapping h req = Except.ok none := by
  unfold baseMapping
  by_cases hc : h.hasVarKwArg = true ∨ h.hasNamedKwArgs = true
      ∨ (!h.requiredKwArgs.isEmpty) = true
  · rw [if_pos (by simpa [or_assoc, and_assoc] using hc), if_neg hm1, if_neg hm2]
  · rw [if_neg (by simpa [or_assoc, and_assoc] using hc)]

theorem baseMapping_POST_missing_ct {h : HandlerInfo} {req : Request}
    (hc : needsArgs h = true) (hm : req.method = "POST")
    (hct : req.contentType = none) :
    baseMapping h req = Except.error "Missing Content-Type." := by
  unfold baseMapping
  rw [if_pos (by simpa [needsArgs] using hc), hm, hct]
  simp

theorem baseMapping_POST_json_obj {h : HandlerInfo} {req : Request}
    {ct : String} {fields : List (String × JsonVal)}
    (hc : needsArgs h = true) (hm : req.method = "POST")
    (hct : req.contentType = some ct)
    (hj : pyStartsWith (pyLower ct) "application/json" = true)
    (hb : req.jsonBody = JsonVal.obj fields) :
    baseMapping h req
      = Except.ok (some (dictOf (fields.map (fun p => (p.1, Val.json p.2))))) := by
  unfold baseMapping
  rw [if_pos (by simpa [needsArgs] using hc), hm, hct]
  simp [hj, hb]

theorem baseMapping_POST_json_nonobj {h : HandlerInfo} {req : Request}
    {ct : String}
    (hc : needsArgs h = true) (hm : req.method = "POST")
    (hct : req.contentType = some ct)
    (hj : pyStartsWith (pyLower ct) "application/json" = true)
    (hb : ∀ fields, req.jsonBody ≠ JsonVal.obj fields) :
    baseMapping h req = Except.error "JSON body must be object." := by
  unfold baseMapping
  rw [if_pos (by simpa [needsArgs] using hc), hm, hct]
  simp only [hj, if_true]

theorem baseMapping_POST_form {h : HandlerInfo} {req : Request} {ct : String}
    (hc : needsArgs h = true) (hm : req.method = "POST")
    (hct : req.contentType = some ct)
    (hj : pyStartsWith (pyLower ct) "application/json" = false)
    (hf : (pyStartsWith (pyLower ct) "application/x-www-form-urlencoded"
            || pyStartsWith (pyLower ct) "multipart/form-data") = true) :
    baseMapping h req
      = Except.ok (some (dictOf (req.postForm.map (fun p => (p.1, Val.str p.2))))) := by
  unfold baseMapping
  rw [if_pos (by simpa [needsArgs] using hc), hm, hct]
  simp [hj, hf]

theorem baseMapping_POST_unsupported {h : HandlerInfo} {req : Request}
    {ct : String}
    (hc : needsArgs h = true) (hm : req.method = "POST")
    (hct : req.contentType = some ct)
    (hj : pyStartsWith (pyLower ct) "application/json" = false)
    (hf : (pyStartsWith (pyLower ct) "application/x-www-form-urlencoded"
            || pyStartsWith (pyLower ct) "multipart/form-data") = false) :
    baseMapping h req = Except.error ("Unsupported Content-Type: " ++ ct) := by
  unfold baseMapping
  rw [if_pos (by simpa [needsArgs] using hc), hm, hct]
  simp [hj, hf]

/-! ## Characterization of `has_request_arg` -/

theorem kindCond_iff (b : Bool) (k : ParamKind) :
    (b = true ∧ k ≠ ParamKind.varPositional ∧ k ≠ ParamKind.keywordOnly
      ∧ k ≠ ParamKind.varKeyword)
    ↔ (b = true ∧ ordinaryPositional k = true) := by
  cases k <;> simp [ordinaryPositional]

theorem loop_error_iff (l : List Param) (found : Bool) :
    (∃ msg, has_request_arg_loop found l = Except.error msg)
      ↔ ∃ l₂ q l₃, l = l₂ ++ q :: l₃
          ∧ (found || l₂.any (fun r => r.name = "request")) = true
          ∧ q.name ≠ "request" ∧ ordinaryPositional q.kind = true := by
  induction l generalizing found with
  | nil =>
    constructor
    · rintro ⟨msg, hmsg⟩
      cases hmsg
    · rintro ⟨l₂, q, l₃, habs, -⟩
      cases l₂ <;> cases habs
  | cons p rest ih =>
    by_cases hreq : p.name = "request"
    · rw [show has_request_arg_loop found (p :: rest)
          = has_request_arg_loop true rest by
            simp only [has_request_arg_loop.eq_2]; rw [if_pos hreq]]
      rw [ih]
      constructor
      · rintro ⟨l₂, q, l₃, hsplit, -, hq, hord⟩
        exact ⟨p :: l₂, q, l₃, by rw [hsplit, List.cons_append], by simp [hreq], hq, hord⟩
      · rintro ⟨l₂, q, l₃, hsplit, hcond, hq, hord⟩
        cases l₂ with
        | nil =>
          simp only [List.nil_append, List.cons.injEq] at hsplit
          exact absurd (hsplit.1 ▸ hreq) hq
        | cons p' l₂' =>
          simp only [List.cons_append, List.cons.injEq] at hsplit
          exact ⟨l₂', q, l₃, hsplit.2, by simp, hq, hord⟩
    · by_cases hbad : found = true ∧ ordinaryPositional p.kind = true
      · rw [show has_request_arg_loop found (p :: rest)
            = Except.error
                "request parameter must be the last named parameter in function" by
              simp only [has_request_arg_loop.eq_2]
              rw [if_neg hreq, if_pos ((kindCond_iff found p.kind).mpr hbad)]]
        constructor
        · rintro -
          exact ⟨[], p, rest, rfl, by simpa using hbad.1, hreq, hbad.2⟩
        · rintro -
          exact ⟨_, rfl⟩
      · rw [show has_request_arg_loop found (p :: rest)
            = has_request_arg_loop found rest by
              simp only [has_request_arg_loop.eq_2]
              rw [if_neg hreq, if_neg (fun hc => hbad ((kindCond_iff found p.kind).mp hc))]]
        rw [ih]
        constructor
        · rintro ⟨l₂, q, l₃, hsplit, hcond, hq, hord⟩
          refine ⟨p :: l₂, q, l₃, by rw [hsplit, List.cons_append], ?_, hq, hord⟩
          simpa [hreq] using hcond
        · rintro ⟨l₂, q, l₃, hsplit, hcond, hq, hord⟩
          cases l₂ with
          | nil =>
            simp only [List.nil_append, List.cons.injEq] at hsplit
            simp only [List.any_nil, Bool.or_false] at hcond
            exact absurd ⟨hcond, hsplit.1 ▸ hord⟩ hbad
          | cons p' l₂' =>
            simp only [List.cons_append, List.cons.injEq] at hsplit
            refine ⟨l₂', q, l₃, hsplit.2, ?_, hq, hord⟩
            have hp' : p' = p := hsplit.1.symm
            subst hp'
            simpa [hreq] using hcond


theorem loop_ok (l : List Param) (found : Bool)
    (h : ¬∃ msg, has_request_arg_loop found l = Except.error msg) :
    has_request_arg_loop found l
      = Except.ok (found || l.any (fun p => p.name = "request")) := by
  induction l generalizing found with
  | nil => simp [has_request_arg_loop]
  | cons p rest ih =>
    by_cases hreq : p.name = "request"
    · have hstep : has_request_arg_loop found (p :: rest)
          = has_request_arg_loop true rest := by
        simp only [has_request_arg_loop.eq_2]; rw [if_pos hreq]
      rw [hstep] at h ⊢
      rw [ih true h]
      simp [hreq]
    · by_cases hbad : found = true ∧ ordinaryPositional p.kind = true
      · exfalso
        apply h
        refine ⟨"request parameter must be the last named parameter in function", ?_⟩
        simp only [has_request_arg_loop.eq_2]
        rw [if_neg hreq, if_pos ((kindCond_iff found p.kind).mpr hbad)]
      · have hstep : has_request_arg_loop found (p :: rest)
            = has_request_arg_loop found rest := by
          simp only [has_request_arg_loop.eq_2]
          rw [if_neg hreq, if_neg (fun hc => hbad ((kindCond_iff found p.kind).mp hc))]
        rw [hstep] at h ⊢
        rw [ih found h]
        simp [hreq]

theorem has_request_arg_error_iff (params : List Param) :
    (∃ msg, has_request_arg params = Except.error msg)
      ↔ requestBeforeOrdinary params := by
  unfold has_request_arg
  rw [loop_error_iff]
  unfold requestBeforeOrdinary
  constructor
  · rintro ⟨l₂, q, l₃, hsplit, hcond, hq, hord⟩
    simp only [Bool.false_or, List.any_eq_true, decide_eq_true_eq] at hcond
    rcases hcond with ⟨r, hrmem, hrname⟩
    rcases List.append_of_mem hrmem with ⟨s, t, hst⟩
    refine ⟨s, r, t, q, l₃, ?_, hrname, hq, hord⟩
    rw [hsplit, hst]
  · rintro ⟨l₁, p, l₂, q, l₃, hsplit, hp, hq, hord⟩
    refine ⟨l₁ ++ p :: l₂, q, l₃, ?_, ?_, hq, hord⟩
    · rw [hsplit]
    · simp [List.any_eq_true]
      exact Or.inr (Or.inl hp)

theorem has_request_arg_ok_of_not (params : List Param)
    (h : ¬requestBeforeOrdinary params) :
    has_request_arg params
      = Except.ok (params.any (fun p => p.name = "request")) := by
  unfold has_request_arg
  have hne : ¬∃ msg, has_request_arg_loop false params = Except.error msg := by
    intro hex
    exact h ((has_request_arg_error_iff params).mp hex)
  have := loop_ok params false hne
  simpa using this

/-! ## Closed form of `add_routes` -/

theorem add_routes_aux (mod : List ModAttr)
    (hok : ∀ a ∈ mod, registrable a = true → ∃ e, add_route a.fn = Except.ok e) :
    ∀ acc : List (String × String × HandlerInfo),
    mod.foldlM
      (fun acc a =>
        if registrable a then
          match add_route a.fn with
          | Except.ok e => Except.ok (acc ++ [e])
          | Except.error msg => Except.error msg
        else
          Except.ok acc) acc
      = Except.ok (acc ++ mod.filterMap
          (fun a => if registrable a then (add_route a.fn).toOption else none)) := by
  induction mod with
  | nil =>
    intro acc
    simp only [List.foldlM, List.filterMap_nil, List.append_nil]
    rfl
  | cons a rest ih =>
    intro acc
    simp only [List.foldlM]
    by_cases hr : registrable a = true
    · rcases hok a (List.mem_cons_self a rest) hr with ⟨e, he⟩
      rw [if_pos hr, he]
      have hstep :
          (Except.ok (acc ++ [e]) >>= fun acc =>
            rest.foldlM
              (fun acc a =>
                if registrable a then
                  match add_route a.fn with
                  | Except.ok e => Except.ok (acc ++ [e])
                  | Except.error msg => Except.error msg
                else
                  Except.ok acc) acc)
          = rest.foldlM
              (fun acc a =>
                if registrable a then
                  match add_route a.fn with
                  | Except.ok e => Except.ok (acc ++ [e])
                  | Except.error msg => Except.error msg
                else
                  Except.ok acc) (acc ++ [e]) := rfl
      rw [hstep, ih (fun a ha hr => hok a (List.mem_cons_of_mem _ ha) hr) (acc ++ [e])]
      rw [List.filterMap_cons]
      simp [hr, he, Except.toOption, List.append_assoc]
    · have hr' : registrable a = false := Bool.eq_false_iff.mpr hr
      rw [if_neg (by simp [hr'])]
      have hstep :
          (Except.ok acc >>= fun acc =>
            rest.foldlM
              (fun acc a =>
                if registrable a then
                  match add_route a.fn with
                  | Except.ok e => Except.ok (acc ++ [e])
                  | Except.error msg => Except.error msg
                else
                  Except.ok acc) acc)
          = rest.foldlM
              (fun acc a =>
                if registrable a then
                  match add_route a.fn with
                  | Except.ok e => Except.ok (acc ++ [e])
                  | Except.error msg => Except.error msg
                else
                  Except.ok acc) acc := rfl
      rw [hstep, ih (fun a ha hr => hok a (List.mem_cons_of_mem _ ha) hr) acc]
      rw [List.filterMap_cons]
      simp [hr']

theorem add_routes_closed (mod : List ModAttr)
    (hok : ∀ a ∈ mod, registrable a = true → ∃ e, add_route a.fn = Except.ok e) :
    add_routes mod
      = Except.ok (mod.filterMap
          (fun a => if registrable a then (add_route a.fn).toOption else none)) := by
  unfold add_routes
  have := add_routes_aux mod hok []
  simpa using this

/-! ## A helper for the required-argument check -/

theorem find_first_missing (kw : PyDict Val) (pre : List String) (name : String)
    (post : List String)
    (hhave : ∀ n ∈ pre, dictContains kw n = true)
    (hmiss : dictContains kw name = false) :
    (pre ++ name :: post).find? (fun n => !dictContains kw n) = some name := by
  induction pre with
  | nil => simp [List.find?, hmiss]
  | cons p pre ih =>
    have hp := hhave p (List.mem_cons_self p pre)
    simp only [List.cons_append, List.find?, hp, Bool.not_true]
    exact ih (fun n hn => hhave n (List.mem_cons_of_mem _ hn))

/-! ## The claims -/

/-- C1, corrected: when the binder produced a base mapping from the body or
query string, every path-matched segment key ends up bound to the path
segment's value in the final mapping — except the key `request` when the
handler declares a `request` parameter, which the later request-injection
step overwrites. -/
theorem claim_C1 (h : HandlerInfo) (req : Request) (base kw : PyDict Val)
    (hbase : baseMapping h req = Except.ok (some base))
    (hbind : bind h req = Except.ok kw)
    (hnd : (req.matchInfo.map Prod.fst).Nodup)
    (k v : String) (hmem : (k, v) ∈ req.matchInfo)
    (hnotreq : ¬(h.hasRequestArg = true ∧ k = "request")) :
    dictLookup kw k = some (Val.str v) := by
  obtain ⟨hpre, -⟩ := bind_ok_elim hbind
  rw [preBind_base_some hbase] at hpre
  have hkw : kw
      = (if h.hasRequestArg then
          dictInsert (mergeMatchInfo (filterNamed h base) req.matchInfo)
            "request" Val.request
        else mergeMatchInfo (filterNamed h base) req.matchInfo) :=
    (Except.ok.inj hpre).symm
  subst hkw
  have hM : dictLookup (mergeMatchInfo (filterNamed h base) req.matchInfo) k
      = some (Val.str v) := by
    unfold mergeMatchInfo
    exact foldl_insert_lookup_mem Val.str req.matchInfo (filterNamed h base)
      k v hnd hmem
  cases hR : h.hasRequestArg
  · rw [if_neg Bool.false_ne_true]
    exact hM
  · rw [if_pos rfl,
      dictLookup_insert_ne _ _ _ (fun heq => hnotreq ⟨hR, heq⟩)]
    exact hM

/-- C1 counterexample: with a handler declaring `request` and a var-keyword
bag, a POST form request whose route matched the path segment
`request = "42"` does not end with `"42"` under the key `request`: the raw
request object overwrites it, so the claim's universal statement over all
path-segment keys fails. -/
theorem claim_C1_counterexample :
    mkHandlerInfo [⟨"request", ParamKind.positionalOrKeyword, false⟩,
        ⟨"kw", ParamKind.varKeyword, false⟩]
      = Except.ok ⟨true, true, false, [], []⟩
    ∧ baseMapping ⟨true, true, false, [], []⟩
        { method := "POST", contentType := some "application/x-www-form-urlencoded",
          jsonBody := JsonVal.null, postForm := [("x", "1")], queryString := "",
          matchInfo := [("request", "42")] }
      = Except.ok (some [("x", Val.str "1")])
    ∧ bind ⟨true, true, false, [], []⟩
        { method := "POST", contentType := some "application/x-www-form-urlencoded",
          jsonBody := JsonVal.null, postForm := [("x", "1")], queryString := "",
          matchInfo := [("request", "42")] }
      = Except.ok [("x", Val.str "1"), ("request", Val.request)]
    ∧ Val.request ≠ Val.str "42" :=
  ⟨rfl, rfl, rfl, fun hc => Val.noConfusion hc⟩

/-- C1 witness: a var-keyword handler without a `request` parameter, POST
form body `id=x`, matched path segment `id=42`: the final mapping binds
`id` to the path value `"42"`. -/
theorem claim_C1_witness :
    dictLookup [("id", Val.str "42")] "id" = some (Val.str "42") :=
  claim_C1 ⟨false, true, false, [], []⟩
    { method := "POST", contentType := some "application/x-www-form-urlencoded",
      jsonBody := JsonVal.null, postForm := [("id", "x")], queryString := "",
      matchInfo := [("id", "42")] }
    [("id", Val.str "x")] [("id", Val.str "42")]
    rfl rfl (by decide) "id" "42" (by decide) (by decide)

/-- C2: when the finished argument mapping lacks a required keyword-only
argument, the dispatcher fails with `Missing arguments: <name>` naming the
first missing one in declaration order, and the handler is not invoked
(the dispatch result is the bad-request response for every handler body). -/
theorem claim_C2 {ρ : Type} (params : List Param) (h : HandlerInfo)
    (req : Request) (kw : PyDict Val) (pre post : List String) (name : String)
    (func : PyDict Val → HandlerRun ρ)
    (hmk : mkHandlerInfo params = Except.ok h)
    (hpre : preBind h req = Except.ok kw)
    (hsplit : get_required_kw_args params = pre ++ name :: post)
    (hhave : ∀ n ∈ pre, dictContains kw n = true)
    (hmiss : dictContains kw name = false) :
    bind h req = Except.error ("Missing arguments: " ++ name)
    ∧ dispatch h func req
        = DispatchResult.badRequest ("Missing arguments: " ++ name) := by
  have hreq : h.requiredKwArgs = pre ++ name :: post := by
    rw [(mkHandlerInfo_ok_elim hmk).2.2.2.2, hsplit]
  have hfind : h.requiredKwArgs.find? (fun n => !dictContains kw n)
      = some name := by
    rw [hreq]
    exact find_first_missing kw pre name post hhave hmiss
  have hbind : bind h req = Except.error ("Missing arguments: " ++ name) := by
    rw [bind_of_parts hpre]
    unfold requiredCheck
    rw [hfind]
  refine ⟨hbind, ?_⟩
  unfold dispatch
  rw [hbind]

/-- C2 witness: a handler with required keyword-only arguments `a` and `b`,
a GET request with no query string and no path segments: binding fails with
`Missing arguments: a` (only the first missing name) and dispatch returns
the bad request without calling the handler. -/
theorem claim_C2_witness :
    bind ⟨false, false, true, ["a", "b"], ["a", "b"]⟩
      { method := "GET", contentType := none, jsonBody := JsonVal.null,
        postForm := [], queryString := "", matchInfo := [] }
      = Except.error ("Missing arguments: " ++ "a")
    ∧ dispatch ⟨false, false, true, ["a", "b"], ["a", "b"]⟩
        (fun _ => HandlerRun.ret (0 : Nat))
        { method := "GET", contentType := none, jsonBody := JsonVal.null,
          postForm := [], queryString := "", matchInfo := [] }
      = DispatchResult.badRequest ("Missing arguments: " ++ "a") :=
  claim_C2
    [⟨"a", ParamKind.keywordOnly, false⟩, ⟨"b", ParamKind.keywordOnly, false⟩]
    ⟨false, false, true, ["a", "b"], ["a", "b"]⟩
    { method := "GET", contentType := none, jsonBody := JsonVal.null,
      postForm := [], queryString := "", matchInfo := [] }
    [] [] ["b"] "a" (fun _ => HandlerRun.ret 0)
    rfl rfl rfl (fun n hn => absurd hn (List.not_mem_nil n)) rfl

/-- C3, corrected: the POST body source is resolved by case-insensitive
prefix match on the content type exactly as claimed, except that the
non-object-JSON failure message carries a trailing period:
`JSON body must be object.` -/
theorem claim_C3 (h : HandlerInfo) (req : Request)
    (hneed : needsArgs h = true) (hpost : req.method = "POST") :
    (req.contentType = none →
      bind h req = Except.error "Missing Content-Type.")
    ∧ (∀ ct, req.contentType = some ct →
        pyStartsWith (pyLower ct) "application/json" = true →
        (∀ fields, req.jsonBody = JsonVal.obj fields →
          baseMapping h req
            = Except.ok (some (dictOf (fields.map (fun p => (p.1, Val.json p.2))))))
        ∧ ((∀ fields, req.jsonBody ≠ JsonVal.obj fields) →
          bind h req = Except.error "JSON body must be object."))
    ∧ (∀ ct, req.contentType = some ct →
        pyStartsWith (pyLower ct) "application/json" = false →
        (pyStartsWith (pyLower ct) "application/x-www-form-urlencoded"
          || pyStartsWith (pyLower ct) "multipart/form-data") = true →
        baseMapping h req
          = Except.ok (some (dictOf (req.postForm.map (fun p => (p.1, Val.str p.2))))))
    ∧ (∀ ct, req.contentType = some ct →
        pyStartsWith (pyLower ct) "application/json" = false →
        (pyStartsWith (pyLower ct) "application/x-www-form-urlencoded"
          || pyStartsWith (pyLower ct) "multipart/form-data") = false →
        bind h req = Except.error ("Unsupported Content-Type: " ++ ct)) := by
  refine ⟨?_, ?_, ?_, ?_⟩
  · intro hct
    exact (bind_eq_base_error (baseMapping_POST_missing_ct hneed hpost hct)).2
  · intro ct hct hj
    exact ⟨fun fields hf => baseMapping_POST_json_obj hneed hpost hct hj hf,
      fun hnon =>
        (bind_eq_base_error
          (baseMapping_POST_json_nonobj hneed hpost hct hj hnon)).2⟩
  · intro ct hct hj hform
    exact baseMapping_POST_form hneed hpost hct hj hform
  · intro ct hct hj hform
    exact (bind_eq_base_error
      (baseMapping_POST_unsupported hneed hpost hct hj hform)).2

/-- C3 counterexample: the message produced for a JSON array body is
`JSON body must be object.` (with a trailing period), not the claim's
`JSON body must be object`. -/
theorem claim_C3_counterexample :
    bind ⟨false, true, false, [], []⟩
      { method := "POST", contentType := some "application/json",
        jsonBody := JsonVal.arr [], postForm := [], queryString := "",
        matchInfo := [] }
      = Except.error "JSON body must be object."
    ∧ "JSON body must be object." ≠ "JSON body must be object" :=
  ⟨rfl, by decide⟩

/-- C3 witness: a var-keyword handler and a POST request without a content
type fail with `Missing Content-Type.`; with a mixed-case JSON content type
and an object body, the base mapping holds the object's fields. -/
theorem claim_C3_witness :
    bind ⟨false, true, false, [], []⟩
      { method := "POST", contentType := none, jsonBody := JsonVal.null,
        postForm := [], queryString := "", matchInfo := [] }
      = Except.error "Missing Content-Type."
    ∧ baseMapping ⟨false, true, false, [], []⟩
        { method := "POST", contentType := some "Application/JSON; charset=utf-8",
          jsonBody := JsonVal.obj [("id", JsonVal.str "7")], postForm := [],
          queryString := "", matchInfo := [] }
      = Except.ok (some [("id", Val.json (JsonVal.str "7"))]) :=
  ⟨(claim_C3 ⟨false, true, false, [], []⟩
      { method := "POST", contentType := none, jsonBody := JsonVal.null,
        postForm := [], queryString := "", matchInfo := [] }
      (by decide) rfl).1 rfl,
   ((claim_C3 ⟨false, true, false, [], []⟩
      { method := "POST", contentType := some "Application/JSON; charset=utf-8",
        jsonBody := JsonVal.obj [("id", JsonVal.str "7")], postForm := [],
        queryString := "", matchInfo := [] }
      (by decide) rfl).2.1 "Application/JSON; charset=utf-8" rfl (by decide)).1
     [("id", JsonVal.str "7")] rfl⟩

/-- C5: for GET requests with a non-empty query string reaching a handler
that declares named, required, or var-keyword arguments, the base mapping is
the query-string mapping, in which every key holds the value of its first
occurrence (so a repeated key keeps the first value and a blank value is
kept as the empty string, which `parse_qsl` preserves). -/
theorem claim_C5 (h : HandlerInfo) (req : Request)
    (hneed : needsArgs h = true) (hm : req.method = "GET")
    (hq : req.queryString ≠ "") :
    baseMapping h req = Except.ok (some (queryMapping req.queryString))
    ∧ ∀ k, dictLookup (queryMapping req.queryString) k
        = ((parse_qsl req.queryString).find? (fun p => p.1 = k)).map
            (fun p => Val.str p.2) :=
  ⟨baseMapping_GET hneed hm hq, fun k => queryMapping_lookup req.queryString k⟩

/-- C5 witness: the query string `a=1&a=2&b=` resolves to `a = "1"` (the
first occurrence wins) and `b = ""` (the blank value is preserved). -/
theorem claim_C5_witness :
    baseMapping ⟨false, true, false, [], []⟩
      { method := "GET", contentType := none, jsonBody := JsonVal.null,
        postForm := [], queryString := "a=1&a=2&b=", matchInfo := [] }
      = Except.ok (some (queryMapping "a=1&a=2&b="))
    ∧ dictLookup (queryMapping "a=1&a=2&b=") "a" = some (Val.str "1")
    ∧ dictLookup (queryMapping "a=1&a=2&b=") "b" = some (Val.str "") := by
  have hmain := claim_C5 ⟨false, true, false, [], []⟩
    { method := "GET", contentType := none, jsonBody := JsonVal.null,
      postForm := [], queryString := "a=1&a=2&b=", matchInfo := [] }
    (by decide) rfl (by decide)
  refine ⟨hmain.1, ?_, ?_⟩
  · rw [hmain.2 "a"]
    rfl
  · rw [hmain.2 "b"]
    rfl

/-- C8: when binding succeeded, a handler body that raises the business
error `APIError (error, data, message)` makes the dispatcher return the
structured mapping `{error, data, message}` — never a bad-request response —
while any other exception propagates unmodified. -/
theorem claim_C8 {ρ : Type} (h : HandlerInfo) (req : Request) (kw : PyDict Val)
    (func : PyDict Val → HandlerRun ρ)
    (hbind : bind h req = Except.ok kw) :
    (∀ c d m, func kw = HandlerRun.raiseAPIError c d m →
      dispatch h func req = DispatchResult.errorDict c d m
      ∧ ∀ msg, dispatch h func req ≠ DispatchResult.badRequest msg)
    ∧ (∀ e, func kw = HandlerRun.raiseOther e →
      dispatch h func req = DispatchResult.propagated e) := by
  have hd : dispatch h func req
      = (match func kw with
        | HandlerRun.ret r => DispatchResult.response r
        | HandlerRun.raiseAPIError c d m => DispatchResult.errorDict c d m
        | HandlerRun.raiseOther e => DispatchResult.propagated e) := by
    unfold dispatch
    rw [hbind]
  constructor
  · intro c d m hf
    have h1 : dispatch h func req = DispatchResult.errorDict c d m := by
      rw [hd, hf]
    exact ⟨h1, fun msg hc => by rw [h1] at hc; cases hc⟩
  · intro e hf
    rw [hd, hf]

/-- C8 witness: a handler raising `APIError ("E1", {}, "bad")` produces the
structured error mapping, not a bad request; a handler raising any other
exception propagates it. -/
theorem claim_C8_witness :
    dispatch ⟨false, false, false, [], []⟩
      ((fun _ => HandlerRun.raiseAPIError (JsonVal.str "E1") (JsonVal.obj []) "bad") :
        PyDict Val → HandlerRun Nat)
      { method := "GET", contentType := none, jsonBody := JsonVal.null,
        postForm := [], queryString := "", matchInfo := [] }
      = DispatchResult.errorDict (JsonVal.str "E1") (JsonVal.obj []) "bad"
    ∧ dispatch ⟨false, false, false, [], []⟩
        ((fun _ => HandlerRun.raiseAPIError (JsonVal.str "E1") (JsonVal.obj []) "bad") :
          PyDict Val → HandlerRun Nat)
        { method := "GET", contentType := none, jsonBody := JsonVal.null,
          postForm := [], queryString := "", matchInfo := [] }
      ≠ DispatchResult.badRequest "bad"
    ∧ dispatch ⟨false, false, false, [], []⟩
        ((fun _ => HandlerRun.raiseOther "boom") : PyDict Val → HandlerRun Nat)
        { method := "GET", contentType := none, jsonBody := JsonVal.null,
          postForm := [], queryString := "", matchInfo := [] }
      = DispatchResult.propagated "boom" := by
  have hmain := @claim_C8 Nat ⟨false, false, false, [], []⟩
    { method := "GET", contentType := none, jsonBody := JsonVal.null,
      postForm := [], queryString := "", matchInfo := [] }
    []
    (fun _ => HandlerRun.raiseAPIError (JsonVal.str "E1") (JsonVal.obj []) "bad")
    rfl
  have hother := @claim_C8 Nat ⟨false, false, false, [], []⟩
    { method := "GET", contentType := none, jsonBody := JsonVal.null,
      postForm := [], queryString := "", matchInfo := [] }
    []
    (fun _ => HandlerRun.raiseOther "boom")
    rfl
  exact ⟨(hmain.1 _ _ _ rfl).1, (hmain.1 _ _ _ rfl).2 "bad",
    hother.2 "boom" rfl⟩

/-- C10: whenever the handler declares a `request` parameter and binding
succeeds, the final mapping binds the key `request` to the raw request
object, overwriting any caller-supplied value under that key because the
injection runs after the filter and the path-segment merge. -/
theorem claim_C10 (params : List Param) (h : HandlerInfo) (req : Request)
    (kw : PyDict Val)
    (hmk : mkHandlerInfo params = Except.ok h)
    (hra : h.hasRequestArg = true)
    (hbind : bind h req = Except.ok kw) :
    dictLookup kw "request" = some Val.request := by
  obtain ⟨hpre, -⟩ := bind_ok_elim hbind
  cases hb : baseMapping h req with
  | error e =>
    rw [(bind_eq_base_error hb).1] at hpre
    cases hpre
  | ok kwOpt =>
    cases kwOpt with
    | none =>
      rw [preBind_base_none hb] at hpre
      have hkw : kw = _ := (Except.ok.inj hpre).symm
      rw [hkw, if_pos hra, dictLookup_insert_self]
    | some base =>
      rw [preBind_base_some hb] at hpre
      have hkw : kw = _ := (Except.ok.inj hpre).symm
      rw [hkw, if_pos hra, dictLookup_insert_self]

/-- C10 witness: a handler with `request` and a var-keyword bag, a POST form
field `request=evil` and a matched path segment `request=42`: the final
mapping still binds `request` to the raw request object. -/
theorem claim_C10_witness :
    dictLookup [("request", Val.request)] "request" = some Val.request :=
  claim_C10
    [⟨"request", ParamKind.positionalOrKeyword, false⟩,
     ⟨"kw", ParamKind.varKeyword, false⟩]
    ⟨true, true, false, [], []⟩
    { method := "POST", contentType := some "application/x-www-form-urlencoded",
      jsonBody := JsonVal.null, postForm := [("request", "evil")],
      queryString := "", matchInfo := [("request", "42")] }
    [("request", Val.request)]
    rfl rfl rfl

/-- C4, corrected: registration of a handler containing a parameter named
`request` fails iff an ordinary positional parameter (positional-only or
positional-or-keyword, itself not named `request`) occurs after a parameter
named `request`; keyword-only and variadic parameters may follow `request`
and registration then succeeds. -/
theorem claim_C4 (m p : String) (params : List Param) :
    ((∃ msg, add_route ⟨some m, some p, params⟩ = Except.error msg)
       ↔ requestBeforeOrdinary params)
    ∧ (¬requestBeforeOrdinary params →
        add_route ⟨some m, some p, params⟩
          = Except.ok (m, p,
              { hasRequestArg := params.any (fun q => q.name = "request")
                hasVarKwArg := has_var_kw_arg params
                hasNamedKwArgs := has_named_kw_args params
                namedKwArgs := get_named_kw_args params
                requiredKwArgs := get_required_kw_args params })) := by
  cases hra : has_request_arg params with
  | error e =>
    have herr : mkHandlerInfo params = Except.error e := by
      unfold mkHandlerInfo
      rw [hra]
      rfl
    have haddr : add_route ⟨some m, some p, params⟩ = Except.error e := by
      unfold add_route
      rw [herr]
      rfl
    have hrbo : requestBeforeOrdinary params :=
      (has_request_arg_error_iff params).mp ⟨e, hra⟩
    exact ⟨⟨fun _ => hrbo, fun _ => ⟨e, haddr⟩⟩, fun hnot => absurd hrbo hnot⟩
  | ok b =>
    have hmk : mkHandlerInfo params = Except.ok
        { hasRequestArg := b
          hasVarKwArg := has_var_kw_arg params
          hasNamedKwArgs := has_named_kw_args params
          namedKwArgs := get_named_kw_args params
          requiredKwArgs := get_required_kw_args params } := by
      unfold mkHandlerInfo
      rw [hra]
      rfl
    have haddr : add_route ⟨some m, some p, params⟩ = Except.ok (m, p,
        { hasRequestArg := b
          hasVarKwArg := has_var_kw_arg params
          hasNamedKwArgs := has_named_kw_args params
          namedKwArgs := get_named_kw_args params
          requiredKwArgs := get_required_kw_args params }) := by
      unfold add_route
      rw [hmk]
      rfl
    have hnot : ¬requestBeforeOrdinary params := by
      intro hr
      rcases (has_request_arg_error_iff params).mpr hr with ⟨msg, hmsg⟩
      rw [hra] at hmsg
      cases hmsg
    refine ⟨⟨fun hex => ?_, fun hr => absurd hr hnot⟩, fun _ => ?_⟩
    · rcases hex with ⟨msg, hmsg⟩
      rw [haddr] at hmsg
      cases hmsg
    · have hb : b = params.any (fun q => q.name = "request") := by
        have hok := has_request_arg_ok_of_not params hnot
        rw [hra] at hok
        exact Except.ok.inj hok
      rw [haddr, hb]

/-- C4 counterexample: a handler with an ordinary named (keyword-only)
parameter declared after `request` registers successfully — `has_request_arg`
returns `true` instead of raising, so the claim's registration failure does
not happen. -/
theorem claim_C4_counterexample :
    has_request_arg [⟨"request", ParamKind.positionalOrKeyword, false⟩,
        ⟨"name", ParamKind.keywordOnly, false⟩] = Except.ok true
    ∧ add_route ⟨some "POST", some "/api/x",
        [⟨"request", ParamKind.positionalOrKeyword, false⟩,
         ⟨"name", ParamKind.keywordOnly, false⟩]⟩
      = Except.ok ("POST", "/api/x", ⟨true, false, true, ["name"], ["name"]⟩) :=
  ⟨rfl, rfl⟩

/-- C4 witness: `request` as last parameter registers; an ordinary
positional parameter after `request` fails registration. -/
theorem claim_C4_witness :
    add_route ⟨some "GET", some "/u",
        [⟨"a", ParamKind.positionalOrKeyword, false⟩,
         ⟨"request", ParamKind.positionalOrKeyword, false⟩]⟩
      = Except.ok ("GET", "/u", ⟨true, false, false, [], []⟩)
    ∧ ∃ msg, add_route ⟨some "GET", some "/v",
        [⟨"request", ParamKind.positionalOrKeyword, false⟩,
         ⟨"b", ParamKind.positionalOrKeyword, false⟩]⟩
      = Except.error msg := by
  constructor
  · have hn : ¬requestBeforeOrdinary
        [⟨"a", ParamKind.positionalOrKeyword, false⟩,
         ⟨"request", ParamKind.positionalOrKeyword, false⟩] := by
      intro hr
      rcases (claim_C4 "GET" "/u"
        [⟨"a", ParamKind.positionalOrKeyword, false⟩,
         ⟨"request", ParamKind.positionalOrKeyword, false⟩]).1.mpr hr with ⟨msg, hmsg⟩
      rw [show add_route ⟨some "GET", some "/u",
          [⟨"a", ParamKind.positionalOrKeyword, false⟩,
           ⟨"request", ParamKind.positionalOrKeyword, false⟩]⟩
          = Except.ok ("GET", "/u", ⟨true, false, false, [], []⟩) from rfl] at hmsg
      cases hmsg
    exact ((claim_C4 "GET" "/u"
      [⟨"a", ParamKind.positionalOrKeyword, false⟩,
       ⟨"request", ParamKind.positionalOrKeyword, false⟩]).2 hn).trans (by rfl)
  · exact (claim_C4 "GET" "/v"
      [⟨"request", ParamKind.positionalOrKeyword, false⟩,
       ⟨"b", ParamKind.positionalOrKeyword, false⟩]).1.mpr
      ⟨[], ⟨"request", ParamKind.positionalOrKeyword, false⟩, [],
        ⟨"b", ParamKind.positionalOrKeyword, false⟩, [], rfl, rfl,
        by decide, rfl⟩

/-- C6: for a handler without a var-keyword bag, when a base mapping was
produced, the filter keeps exactly the declared named keyword-only keys
with their base values; consequently every key in the final mapping is a
declared named argument, a path-segment key, or the reserved key `request`,
and any other caller-sent key is silently discarded. -/
theorem claim_C6 (params : List Param) (h : HandlerInfo) (req : Request)
    (base kw : PyDict Val)
    (hmk : mkHandlerInfo params = Except.ok h)
    (hvk : h.hasVarKwArg = false)
    (hbase : baseMapping h req = Except.ok (some base))
    (hbind : bind h req = Except.ok kw) :
    (∀ k, dictLookup (filterNamed h base) k
        = if k ∈ h.namedKwArgs then dictLookup base k else none)
    ∧ (∀ k, dictContains kw k = true →
        k ∈ h.namedKwArgs ∨ k ∈ req.matchInfo.map Prod.fst ∨ k = "request") := by
  obtain ⟨-, -, hhn, hnamed, hreq'⟩ := mkHandlerInfo_ok_elim hmk
  have hne : h.namedKwArgs ≠ [] := by
    have hcond := baseMapping_some_needsArgs hbase
    unfold needsArgs at hcond
    rw [hvk] at hcond
    simp only [Bool.false_or, Bool.or_eq_true] at hcond
    rcases hcond with hn | hr
    · rw [hhn] at hn
      rw [hnamed]
      intro hnil
      have hfalse := has_named_false_of_nil hnil
      rw [hfalse] at hn
      cases hn
    · have hrne : h.requiredKwArgs ≠ [] := by
        intro hnil
        rw [hnil] at hr
        simp at hr
      rw [hreq'] at hrne
      rw [hnamed]
      exact named_ne_nil_of_required hrne
  have hcond2 : (!h.hasVarKwArg && !h.namedKwArgs.isEmpty) = true := by
    have hie : h.namedKwArgs.isEmpty = false := by
      cases hnl : h.namedKwArgs with
      | nil => exact absurd hnl hne
      | cons a l => rfl
    rw [hvk, hie]
    rfl
  refine ⟨fun k => filterNamed_lookup h base k hcond2, ?_⟩
  obtain ⟨hpre, -⟩ := bind_ok_elim hbind
  rw [preBind_base_some hbase] at hpre
  have hkw : kw = _ := (Except.ok.inj hpre).symm
  intro k hk
  rw [hkw] at hk
  by_cases hireq : k = "request"
  · exact Or.inr (Or.inr hireq)
  · have hk' : dictContains
        (mergeMatchInfo (filterNamed h base) req.matchInfo) k = true := by
      cases hR : h.hasRequestArg
      · rw [hR, if_neg Bool.false_ne_true] at hk
        exact hk
      · rw [hR, if_pos rfl] at hk
        rcases dictContains_insert hk with heq | hc
        · exact absurd heq hireq
        · exact hc
    unfold mergeMatchInfo at hk'
    rcases foldl_insert_contains Val.str req.matchInfo (filterNamed h base) k hk'
      with hin | hcf
    · exact Or.inr (Or.inl hin)
    · left
      rw [dictContains_eq_isSome] at hcf
      by_cases hmem : k ∈ h.namedKwArgs
      · exact hmem
      · rw [filterNamed_lookup h base k hcond2, if_neg hmem] at hcf
        exact absurd hcf (by decide)

/-- C6 witness: handler with named keyword-only argument `name` (with a
default), POST form `name=n&evil=e`, path segment `id=7`: the filtered base
drops `evil`, and the key `id` the handler receives is a path-segment key. -/
theorem claim_C6_witness :
    dictLookup (filterNamed ⟨false, false, true, ["name"], []⟩
      [("name", Val.str "n"), ("evil", Val.str "e")]) "evil" = none
    ∧ ("id" ∈ (["name"] : List String)
        ∨ "id" ∈ List.map Prod.fst ([("id", "7")] : List (String × String))
        ∨ "id" = "request") := by
  have hmain := claim_C6 [⟨"name", ParamKind.keywordOnly, true⟩]
    ⟨false, false, true, ["name"], []⟩
    { method := "POST", contentType := some "application/x-www-form-urlencoded",
      jsonBody := JsonVal.null, postForm := [("name", "n"), ("evil", "e")],
      queryString := "", matchInfo := [("id", "7")] }
    [("name", Val.str "n"), ("evil", Val.str "e")]
    [("name", Val.str "n"), ("id", Val.str "7")]
    rfl rfl rfl rfl
  constructor
  · rw [hmain.1 "evil", if_neg (by decide)]
  · exact hmain.2 "id" rfl

/-- C7: a handler with no named keyword-only, no required and no
var-keyword arguments skips body and query parsing entirely: the mapping is
built from the path segments alone (plus the request injection), so two
requests with the same path segments always bind identically. -/
theorem claim_C7 (params : List Param) (h : HandlerInfo) (req : Request)
    (hmk : mkHandlerInfo params = Except.ok h)
    (hvk : h.hasVarKwArg = false)
    (hnamed : h.namedKwArgs = [])
    (hreq : h.requiredKwArgs = []) :
    bind h req = Except.ok
      (if h.hasRequestArg then
        dictInsert (dictOf (req.matchInfo.map (fun p => (p.1, Val.str p.2))))
          "request" Val.request
      else dictOf (req.matchInfo.map (fun p => (p.1, Val.str p.2))))
    ∧ ∀ req' : Request, req'.matchInfo = req.matchInfo →
        bind h req' = bind h req := by
  obtain ⟨-, -, hhn, hnm, -⟩ := mkHandlerInfo_ok_elim hmk
  have hhnf : h.hasNamedKwArgs = false := by
    rw [hhn]
    apply has_named_false_of_nil
    rw [← hnm]
    exact hnamed
  have hcond : needsArgs h = false := by
    unfold needsArgs
    rw [hvk, hhnf, hreq]
    rfl
  have hbindeq : ∀ r : Request, bind h r = Except.ok
      (if h.hasRequestArg then
        dictInsert (dictOf (r.matchInfo.map (fun p => (p.1, Val.str p.2))))
          "request" Val.request
      else dictOf (r.matchInfo.map (fun p => (p.1, Val.str p.2)))) := by
    intro r
    have hb := @baseMapping_skip h r hcond
    rw [bind_of_parts (preBind_base_none hb)]
    unfold requiredCheck
    rw [hreq]
    rfl
  refine ⟨hbindeq req, fun req' hmi => ?_⟩
  rw [hbindeq req', hbindeq req, hmi]

/-- C7 witness: a handler taking only `request`, and two requests with the
same matched segment `id=9` but different methods, query strings and
bodies: both bind to the path-segment mapping plus the request object. -/
theorem claim_C7_witness :
    bind ⟨true, false, false, [], []⟩
      { method := "GET", contentType := none, jsonBody := JsonVal.null,
        postForm := [], queryString := "x=1", matchInfo := [("id", "9")] }
      = Except.ok [("id", Val.str "9"), ("request", Val.request)]
    ∧ bind ⟨true, false, false, [], []⟩
        { method := "POST", contentType := some "application/json",
          jsonBody := JsonVal.arr [], postForm := [("junk", "1")],
          queryString := "zzz", matchInfo := [("id", "9")] }
      = bind ⟨true, false, false, [], []⟩
        { method := "GET", contentType := none, jsonBody := JsonVal.null,
          postForm := [], queryString := "x=1", matchInfo := [("id", "9")] } := by
  have hmain := claim_C7 [⟨"request", ParamKind.positionalOrKeyword, false⟩]
    ⟨true, false, false, [], []⟩
    { method := "GET", contentType := none, jsonBody := JsonVal.null,
      postForm := [], queryString := "x=1", matchInfo := [("id", "9")] }
    rfl rfl rfl rfl
  exact ⟨hmain.1.trans (by rfl), hmain.2
    { method := "POST", contentType := some "application/json",
      jsonBody := JsonVal.arr [], postForm := [("junk", "1")],
      queryString := "zzz", matchInfo := [("id", "9")] } rfl⟩

/-- C9, corrected: explicit registration fails with `ValueError` exactly
when a tag attribute is absent; auto-registration over a module registers
exactly the public callable attributes whose method and path tags are both
present and non-empty (Python truthiness), so a callable carrying an
empty-string tag is silently skipped even though `add_route` would accept
it. -/
theorem claim_C9 (fn : PyFn) (mod : List ModAttr)
    (hok : ∀ a ∈ mod, registrable a = true → ∃ e, add_route a.fn = Except.ok e) :
    ((fn.methodTag = none ∨ fn.routeTag = none) →
      add_route fn = Except.error "@get or @post not define")
    ∧ add_routes mod
        = Except.ok (mod.filterMap
            (fun a => if registrable a then (add_route a.fn).toOption else none))
    ∧ (∀ a ∈ mod, registrable a = true →
        ∀ e, add_route a.fn = Except.ok e →
          e ∈ mod.filterMap
            (fun a => if registrable a then (add_route a.fn).toOption else none)) := by
  refine ⟨?_, add_routes_closed mod hok, ?_⟩
  · intro htag
    rcases fn with ⟨mt, rt, ps⟩
    cases mt with
    | none => cases rt <;> rfl
    | some mv =>
      cases rt with
      | none => rfl
      | some rv =>
        simp only at htag
        rcases htag with hx | hx <;> cases hx
  · intro a ha hr e he
    rw [List.mem_filterMap]
    exact ⟨a, ha, by rw [if_pos hr, he]; rfl⟩

/-- C9 counterexample: an attribute carrying both tags, but with an
empty-string method tag, is skipped by `add_routes` (the route table stays
empty) although it carries both tags — and `add_route` would even accept
it. -/
theorem claim_C9_counterexample :
    add_routes [⟨"h", true, ⟨some "", some "/x", []⟩⟩] = Except.ok []
    ∧ (⟨some "", some "/x", ([] : List Param)⟩ : PyFn).methodTag ≠ none
    ∧ (⟨some "", some "/x", ([] : List Param)⟩ : PyFn).routeTag ≠ none
    ∧ add_route ⟨some "", some "/x", []⟩
      = Except.ok ("", "/x", ⟨false, false, false, [], []⟩) :=
  ⟨rfl, by decide, by decide, rfl⟩

/-- C9 witness: a function without a method tag fails explicit
registration; auto-registration over a module with a proper handler, an
underscore-prefixed attribute and an untagged helper registers only the
handler. -/
theorem claim_C9_witness :
    add_route ⟨none, some "/y", []⟩ = Except.error "@get or @post not define"
    ∧ add_routes
        ([⟨"handler_ok", true, ⟨some "GET", some "/", []⟩⟩,
          ⟨"_private", true, ⟨some "GET", some "/p", []⟩⟩,
          ⟨"helper", true, ⟨none, none, []⟩⟩] : List ModAttr)
      = Except.ok [("GET", "/", ⟨false, false, false, [], []⟩)] := by
  have hok : ∀ a ∈ ([⟨"handler_ok", true, ⟨some "GET", some "/", []⟩⟩,
      ⟨"_private", true, ⟨some "GET", some "/p", []⟩⟩,
      ⟨"helper", true, ⟨none, none, []⟩⟩] : List ModAttr),
      registrable a = true → ∃ e, add_route a.fn = Except.ok e := by
    intro a ha hr
    fin_cases ha
    · exact ⟨("GET", "/", ⟨false, false, false, [], []⟩), rfl⟩
    · exact absurd hr (by decide)
    · exact absurd hr (by decide)
  have hmain := claim_C9 ⟨none, some "/y", []⟩
    ([⟨"handler_ok", true, ⟨some "GET", some "/", []⟩⟩,
      ⟨"_private", true, ⟨some "GET", some "/p", []⟩⟩,
      ⟨"helper", true, ⟨none, none, []⟩⟩] : List ModAttr) hok
  exact ⟨hmain.1 (Or.inl rfl), hmain.2.1.trans (by rfl)⟩

end Webframe
